import Mathlib

/-
Verification development for the MurphyGPT Slack assistant
(Google Sheets FAQ + Google Drive / local SOPs + OpenAI fallback).

The JavaScript source is shallowly embedded below.  Strings are modelled
as Lean strings and all string operations (lowercasing, trimming,
substring containment, whitespace splitting, tokenisation and the small
anchored regular expressions used by the classifier) are implemented
from scratch over the character list of a string so that every
definition is executable and kernel-reducible on concrete inputs.

Modelling conventions:
- JS `hay.includes(needle)` is `strIncludes hay needle`; in particular
  it is true for the empty needle, exactly as in JavaScript.
- `toLowerCase` is mapped ASCII lowercasing (`Char.toLower`); the
  exotic Unicode case mappings of JS play no role in these claims.
- `\s` is modelled by `Char.isWhitespace` (space, tab, CR, LF); the
  rare additional Unicode space code points matched by JS `\s` play no
  role in these claims.
- Asynchronous external calls (OpenAI, Google Sheets/Drive fetches) are
  modelled as explicit oracles of type `Except String _` passed to the
  embedded function; a JS exception thrown by the call corresponds to
  the `Except.error` case.  Global mutable caches become explicit
  arguments and results.
- `console.log` / `console.warn` side effects are modelled, where a
  claim mentions them, as a boolean field of the result.
-/

namespace Murphy

/-! ### Character and string utilities -/

/-- Drop a maximal run of leading whitespace (the regex `\s*`). -/
def dropWs : List Char → List Char
  | [] => []
  | c :: cs => if c.isWhitespace then dropWs cs else c :: cs

/-- JS `String.prototype.trim`: drop whitespace at both ends. -/
def trimChars (l : List Char) : List Char :=
  dropWs ((dropWs l.reverse).reverse)

/-- JS `trim()` on strings. -/
def trimStr (s : String) : String := ⟨trimChars s.data⟩

/-- JS `toLowerCase()` (ASCII case mapping). -/
def lowerStr (s : String) : String := ⟨s.data.map Char.toLower⟩

/-- Does the first list occur at the head of the second? -/
def prefixAt : List Char → List Char → Bool
  | [], _ => true
  | _ :: _, [] => false
  | a :: as, b :: bs => a = b && prefixAt as bs

/-- Does `needle` occur as a contiguous sublist of the second list?
Mirrors JS `String.prototype.includes`: the empty needle always occurs. -/
def occursIn (needle : List Char) : List Char → Bool
  | [] => needle.isEmpty
  | c :: t => prefixAt needle (c :: t) || occursIn needle t

/-- JS `hay.includes(needle)`. -/
def strIncludes (hay needle : String) : Bool := occursIn needle.data hay.data

/-- Split on runs of whitespace, dropping empty pieces: models
JS `s.split(/\s+/).filter(Boolean)`. -/
def splitWsAux : List Char → List Char → List String
  | [], acc => if acc.isEmpty then [] else [(⟨acc.reverse⟩ : String)]
  | c :: cs, acc =>
    if c.isWhitespace then
      if acc.isEmpty then splitWsAux cs []
      else (⟨acc.reverse⟩ : String) :: splitWsAux cs []
    else splitWsAux cs (c :: acc)

/-- JS `s.split(/\s+/).filter(Boolean)`. -/
def splitWs (s : String) : List String := splitWsAux s.data []

/-- A character kept by the tokenizer after lowercasing: `[a-z0-9]`. -/
def isTokenChar (c : Char) : Bool :=
  ('a' ≤ c && c ≤ 'z') || ('0' ≤ c && c ≤ '9')

/-- Split lowered characters on runs of non-`[a-z0-9]` characters. -/
def tokenizeAux : List Char → List Char → List String
  | [], acc => if acc.isEmpty then [] else [(⟨acc.reverse⟩ : String)]
  | c :: cs, acc =>
    if isTokenChar c then tokenizeAux cs (c :: acc)
    else if acc.isEmpty then tokenizeAux cs []
    else (⟨acc.reverse⟩ : String) :: tokenizeAux cs []

/-- index.js `tokenize`:
`(s || '').toLowerCase().split(/[^a-z0-9]+/).filter(Boolean)`. -/
def tokenize (s : String) : List String := tokenizeAux (lowerStr s).data []

/-! ### Data model

`Doc` is the shape read by `scoreItem` / `bestMatchFrom` /
`docGroundedAnswer` (`item.title`, `item.summary`, `item.content`; a
field that is `undefined` in JS reads as the empty string through the
`(x || '')` coercions of the source).  `FaqItem` is a Google-Sheets FAQ
row, `SopItem` an SOP document entry. -/

structure Doc where
  title : String
  summary : String
  content : String
deriving DecidableEq

structure FaqItem where
  id : String
  type : String
  question : String
  answer : String
deriving DecidableEq

structure SopItem where
  id : String
  title : String
  summary : String
  tags : List String
  content : String
  url : String
deriving DecidableEq

/-! ### Relevance scorer (index.js `scoreItem`, `bestMatchFrom`) -/

/-- The inner loop of `scoreItem` for one field: walk the field's token
list and add the field weight `w` for every token that is a member of
the query token set. -/
def termHits (qTokens : List String) (toks : List String) (w : Nat) : Nat :=
  match toks with
  | [] => 0
  | t :: ts => (if qTokens.contains t then w else 0) + termHits qTokens ts w

/-- index.js `scoreItem(q, item)`: field weights title 4, summary 3,
content 1, plus a +6 verbatim boost when the lowercased title contains
the lowercased query and +2 when the content does. -/
def scoreItem (q : String) (item : Doc) : Nat :=
  let qTokens := tokenize q
  termHits qTokens (tokenize item.title) 4
  + termHits qTokens (tokenize item.summary) 3
  + termHits qTokens (tokenize item.content) 1
  + (if strIncludes (lowerStr item.title) (lowerStr q) then 6 else 0)
  + (if strIncludes (lowerStr item.content) (lowerStr q) then 2 else 0)

/-- One step of `bestMatchFrom`: replace the running best only when the
new score is strictly greater (`!best || s > best.score`). -/
def bestStep (q : String) (best : Option (Doc × Nat)) (it : Doc) : Option (Doc × Nat) :=
  let s := scoreItem q it
  match best with
  | none => some (it, s)
  | some b => if b.2 < s then some (it, s) else some b

/-- index.js `bestMatchFrom(arr, q)`. -/
def bestMatchFrom (arr : List Doc) (q : String) : Option (Doc × Nat) :=
  match arr with
  | [] => none
  | _ :: _ => arr.foldl (bestStep q) none

/-! ### findFAQ / findSOP (index.js) -/

/-- A fold adding `w` for every term contained in the haystack: models
the JS loops `for (const t of terms) if (hay.includes(t)) score += w`. -/
def countHits (terms : List String) (hay : String) (w : Nat) : Nat :=
  terms.foldl (fun acc t => if strIncludes hay t then acc + w else acc) 0

/-- The haystack of index.js `findFAQ`:
`(item.question + ' ' + item.answer + ' ' + (item.type || '')).toLowerCase()`. -/
def findFaqHay (item : FaqItem) : String :=
  lowerStr (item.question ++ " " ++ item.answer ++ " " ++ item.type)

/-- The score computed per item inside index.js `findFAQ`; `q` is the
already-lowercased query. -/
def findFaqScore (q : String) (item : FaqItem) : Nat :=
  (if strIncludes (findFaqHay item) q then 10 else 0)
  + countHits (splitWs q) (findFaqHay item) 1

/-- One loop iteration of `findFAQ`: strict improvement replaces the
running best (`score > bestScore`, `bestScore` starting at 0). -/
def findStep (q : String) (st : Option FaqItem × Nat) (item : FaqItem) : Option FaqItem × Nat :=
  let score := findFaqScore q item
  if st.2 < score then (some item, score) else st

/-- index.js `findFAQ(query)`; the cache is passed explicitly. -/
def findFAQ (query : String) (cache : List FaqItem) : Option FaqItem :=
  (cache.foldl (findStep (lowerStr query)) (none, 0)).1

/-- The haystack of index.js `findSOP`:
`(item.title + ' ' + item.content).toLowerCase()`. -/
def findSopHay (item : SopItem) : String :=
  lowerStr (item.title ++ " " ++ item.content)

/-- The score computed per item inside index.js `findSOP`: +10 phrase
containment, +1 per query word in the haystack, +2 per query word in
the lowercased title. `q` is the already-lowercased query. -/
def sopFindScore (q : String) (item : SopItem) : Nat :=
  (if strIncludes (findSopHay item) q then 10 else 0)
  + countHits (splitWs q) (findSopHay item) 1
  + countHits (splitWs q) (lowerStr item.title) 2

/-- One loop iteration of `findSOP` (strict improvement). -/
def sopStep (q : String) (st : Option SopItem × Nat) (item : SopItem) : Option SopItem × Nat :=
  let score := sopFindScore q item
  if st.2 < score then (some item, score) else st

/-- index.js `findSOP(query)`; the cache is passed explicitly. -/
def findSOP (query : String) (cache : List SopItem) : Option SopItem :=
  (cache.foldl (sopStep (lowerStr query)) (none, 0)).1

/-! ### Ranked search (searchFaqs / searchSOPs)

`Array.prototype.sort` with comparator `(a, b) => b.score - a.score` is
(since ES2019, and in Node) a *stable* descending sort by score.  The
unique stable descending order is implemented here by left-to-right
insertion: each element is inserted after all already-placed elements
of greater-or-equal score, so elements with equal scores keep their
original relative order. -/

/-- Insert a scored element into a descending-sorted list, after every
element with greater-or-equal score. -/
def insertRanked (x : α × Nat) : List (α × Nat) → List (α × Nat)
  | [] => [x]
  | y :: ys => if y.2 < x.2 then x :: y :: ys else y :: insertRanked x ys

/-- Stable descending sort by score (the JS `sort((a, b) => b - a)`). -/
def sortByScoreDesc (l : List (α × Nat)) : List (α × Nat) :=
  l.foldl (fun acc x => insertRanked x acc) []

/-- The haystack of `searchFaqs` (parts 000/001):
`${item.type} ${item.question} ${item.answer}` lowercased.  Note the
field order differs from `findFAQ`. -/
def searchFaqHay (item : FaqItem) : String :=
  lowerStr (item.type ++ " " ++ item.question ++ " " ++ item.answer)

/-- The score of one FAQ row inside `searchFaqs`; `q` is the lowered
query: +10 exact phrase containment, +1 per query term in the hay. -/
def searchFaqScore (q : String) (item : FaqItem) : Nat :=
  (if strIncludes (searchFaqHay item) q then 10 else 0)
  + countHits (splitWs q) (searchFaqHay item) 1

/-- `searchFaqs(query, limit, wantedType)` of parts 000/001: score all
rows, keep positive scores, apply the optional type-equality filter,
sort descending stably, truncate to `limit`, strip the scores. -/
def searchFaqs (cache : List FaqItem) (query : String) (limit : Nat)
    (wantedType : Option String) : List FaqItem :=
  let q := lowerStr query
  let scored := cache.map (fun it => (it, searchFaqScore q it))
  let keep := (scored.filter (fun x => decide (0 < x.2))).filter
      (fun x => match wantedType with
                | none => true
                | some t => lowerStr x.1.type == t)
  ((sortByScoreDesc keep).take limit).map Prod.fst

/-- JS `(s.tags || []).join(' ')`. -/
def joinSpace : List String → String
  | [] => ""
  | [x] => x
  | x :: xs => x ++ " " ++ joinSpace xs

/-- The haystack of `searchSOPs` (parts 000/001):
`${s.title} ${s.summary || ''} ${(s.tags || []).join(' ')} ${s.content || ''}`
lowercased. -/
def sopSearchHay (s : SopItem) : String :=
  lowerStr (s.title ++ " " ++ s.summary ++ " " ++ joinSpace s.tags ++ " " ++ s.content)

/-- The score of one SOP inside `searchSOPs`; `q` is the lowered query. -/
def sopSearchScore (q : String) (s : SopItem) : Nat :=
  (if strIncludes (sopSearchHay s) q then 10 else 0)
  + countHits (splitWs q) (sopSearchHay s) 1

/-- `searchSOPs(query, limit)` of parts 000/001 (with its
`if (!SOPS.length) return []` guard). -/
def searchSOPs (sops : List SopItem) (query : String) (limit : Nat) : List SopItem :=
  if sops.isEmpty then []
  else
    let q := lowerStr query
    let scored := sops.map (fun s => (s, sopSearchScore q s))
    let keep := scored.filter (fun x => decide (0 < x.2))
    ((sortByScoreDesc keep).take limit).map Prod.fst

/-! ### docGroundedAnswer (index.js) -/

inductive DocKind where
  | sop
  | faq
deriving DecidableEq

/-- The routing outcome of `docGroundedAnswer`, abstracting from the
LLM presentation step: either the early empty-query prompt, a grounded
candidate (source kind, document, score), or the pure-LLM fallback. -/
inductive DocDecision where
  | prompt
  | grounded (kind : DocKind) (item : Doc) (score : Nat)
  | llm (q : String)
deriving DecidableEq

/-- One candidate probe of `docGroundedAnswer`:
`const b = bestMatchFrom(cache, q); if (b && b.score >= 6) cand = ...`. -/
def candFrom (cache : List Doc) (kind : DocKind) (q : String) :
    Option (DocKind × Doc × Nat) :=
  match bestMatchFrom cache q with
  | some b => if 6 ≤ b.2 then some (kind, b.1, b.2) else none
  | none => none

/-- `if (!cand) cand = ...`: keep the first candidate, else the second. -/
def firstCand (c1 c2 : Option (DocKind × Doc × Nat)) : Option (DocKind × Doc × Nat) :=
  match c1 with
  | some c => some c
  | none => c2

/-- Turn the selected candidate into the routing outcome: a grounded
reply when a candidate exists, else the pure-LLM fallback. -/
def decideCand (q : String) (c : Option (DocKind × Doc × Nat)) : DocDecision :=
  match c with
  | some c => .grounded c.1 c.2.1 c.2.2
  | none => .llm q

/-- index.js `docGroundedAnswer({text, force})`: trims the text,
returns the prompt on empty input, otherwise tries `bestMatchFrom` on
the SOP cache (when wanted and non-empty) with confidence threshold 6,
then the FAQ cache, then falls back to the LLM.  The caches are passed
explicitly. -/
def docGroundedAnswer (sopCache faqCache : List Doc) (force : Option DocKind)
    (text : String) : DocDecision :=
  let q := trimStr text
  if q = "" then .prompt
  else
    let wantSOP := force.isNone || force == some DocKind.sop
    let wantFAQ := force.isNone || force == some DocKind.faq
    let sopCand := if wantSOP && !sopCache.isEmpty then candFrom sopCache DocKind.sop q else none
    let faqCand := if wantFAQ && !faqCache.isEmpty then candFrom faqCache DocKind.faq q else none
    decideCand q (firstCand sopCand faqCand)

/-! ### Small anchored regular expressions of the classifier

These model the concrete regexes of the source.  Patterns are given as
lowercase literals; `stripCI` consumes a case-insensitive literal (for
`/i` regexes) and `stripLit` an exact one (for text that the source has
already lowercased).  JS `.` does not match line terminators and `$`
(without `/m`) only matches at the very end of the input, which is why
the capture helpers reject embedded line terminators. -/

/-- Consume the case-insensitively matching literal `pat` (given in
lowercase) from the head of `l`. -/
def stripCI : List Char → List Char → Option (List Char)
  | [], l => some l
  | _ :: _, [] => none
  | p :: ps, c :: cs => if c.toLower = p then stripCI ps cs else none

/-- Consume the exactly matching literal `pat` from the head of `l`. -/
def stripLit : List Char → List Char → Option (List Char)
  | [], l => some l
  | _ :: _, [] => none
  | p :: ps, c :: cs => if c = p then stripLit ps cs else none

/-- A JS line terminator (not matched by `.`). -/
def isLineTerm (c : Char) : Bool :=
  c = '\n' || c = '\r' || c = ' ' || c = ' '

/-- JS word character `\w` = `[A-Za-z0-9_]`, for `\b` boundaries. -/
def isWordChar (c : Char) : Bool :=
  ('a' ≤ c && c ≤ 'z') || ('A' ≤ c && c ≤ 'Z') || ('0' ≤ c && c ≤ '9') || c = '_'

/-- Match `\s*(.*)$` against `l` and return the capture: the text after
the maximal whitespace run, provided it contains no line terminator
(otherwise the anchored regex cannot match at all). -/
def tailCapture (l : List Char) : Option (List Char) :=
  let r := dropWs l
  if r.any isLineTerm then none else some r

/-- Match `\s*(.+)$` against `l` and return the capture.  When the text
after the maximal whitespace run is empty, the greedy `\s*` backtracks
by exactly one character, so the capture is the final whitespace
character (provided `.` can match it). -/
def tailCapture1 (l : List Char) : Option (List Char) :=
  let r := dropWs l
  if r.isEmpty then
    match l.getLast? with
    | some c => if isLineTerm c then none else some [c]
    | none => none
  else if r.any isLineTerm then none else some r

/-- Consume `\s+` (at least one whitespace character, then maximal). -/
def wsPlus : List Char → Option (List Char)
  | c :: cs => if c.isWhitespace then some (dropWs cs) else none
  | [] => none

/-- Does `l` consist exactly of the case-insensitive literal `pat`? -/
def matchEnd (pat : List Char) (l : List Char) : Bool :=
  match stripCI pat l with
  | some [] => true
  | _ => false

/-- Does `l` consist exactly of `sop` or `sops` (case-insensitive)?
Models the regex tail `sops?$`. -/
def matchSopEnd (l : List Char) : Bool :=
  match stripCI "sop".data l with
  | some [] => true
  | some [c] => decide (c.toLower = 's')
  | _ => false

inductive ControlMode where
  | sop
  | faq
deriving DecidableEq

/-- `getControlPrefix` of part 000:
`/^\s*(sop|faq):\s*(.*)$/i`; on a match returns the lowercased mode and
the raw capture, otherwise `(null, raw)`. -/
def getControlMode (raw : String) : Option ControlMode × String :=
  let l := dropWs raw.data
  match stripCI "sop:".data l with
  | some rest =>
    match tailCapture rest with
    | some cap => (some ControlMode.sop, (⟨cap⟩ : String))
    | none => (none, raw)
  | none =>
    match stripCI "faq:".data l with
    | some rest =>
      match tailCapture rest with
      | some cap => (some ControlMode.faq, (⟨cap⟩ : String))
      | none => (none, raw)
    | none => (none, raw)

/-- The category keywords of `parseTypePrefix`. -/
def typeKeywords : List String := ["buyer", "seller", "investor", "agent", "general"]

/-- Try one keyword of `parseTypePrefix` against the (whitespace
stripped) text: keyword, then `:`, then `\s*(.*)$`. -/
def tryTypeKw (l : List Char) (kw : String) : Option (String × String) :=
  match stripCI kw.data l with
  | some rest =>
    match rest with
    | ':' :: r2 => (tailCapture r2).map (fun cap => (kw, (⟨cap⟩ : String)))
    | _ => none
  | none => none

/-- `parseTypePrefix` of parts 000/001:
`/^\s*(buyer|seller|investor|agent|general):\s*(.*)$/i`; on a match
returns the lowercased type and the capture, else `(null, text)`. -/
def parseTypeTag (text : String) : Option String × String :=
  match typeKeywords.findSome? (tryTypeKw (dropWs text.data)) with
  | some (t, q) => (some t, q)
  | none => (none, text)

/-- `/^(refresh|sync)\s+faq$/i` (parts 000/001 maintenance command). -/
def isRefreshFaqCmd (raw : String) : Bool :=
  (match stripCI "refresh".data raw.data with
   | some rest => match wsPlus rest with
     | some r => matchEnd "faq".data r
     | none => false
   | none => false)
  ||
  (match stripCI "sync".data raw.data with
   | some rest => match wsPlus rest with
     | some r => matchEnd "faq".data r
     | none => false
   | none => false)

/-- `/^(refresh|reload)\s+sops?$/i` (parts 000/001 maintenance command). -/
def isReloadSopsCmd (raw : String) : Bool :=
  (match stripCI "refresh".data raw.data with
   | some rest => match wsPlus rest with
     | some r => matchSopEnd r
     | none => false
   | none => false)
  ||
  (match stripCI "reload".data raw.data with
   | some rest => match wsPlus rest with
     | some r => matchSopEnd r
     | none => false
   | none => false)

/-- `/^refresh\s+faq$/i` (index.js admin command). -/
def isRefreshFaqIdx (t : String) : Bool :=
  match stripCI "refresh".data t.data with
  | some rest => match wsPlus rest with
    | some r => matchEnd "faq".data r
    | none => false
  | none => false

/-- `/^refresh\s+sops?$/i` (index.js admin command). -/
def isRefreshSopsIdx (t : String) : Bool :=
  match stripCI "refresh".data t.data with
  | some rest => match wsPlus rest with
    | some r => matchSopEnd r
    | none => false
  | none => false

/-! ### Chit-chat and trivial-message guard (index.js) -/

/-- The acknowledgement alternatives of `ACK_RE`. -/
def ackPhrases : List String :=
  ["thanks", "thank you", "thx", "ty", "👍", "👌", "🙏", "great", "got it",
   "sounds good", "perfect", "awesome", "nice", "cool", "ok", "okay", "k",
   "yup", "yep", "roger", "copy", "understood", "done", "appreciate it"]

/-- Match the regex tail `[.!]?\s*$`: optionally one `.` or `!`, then
only whitespace up to the end. -/
def ackEnd (rest : List Char) : Bool :=
  (dropWs rest).isEmpty ||
  (match rest with
   | c :: cs => (c = '.' || c = '!') && (dropWs cs).isEmpty
   | [] => false)

/-- Match one `ACK_RE` alternative: the phrase (case-insensitive, from
the start), a `\b` boundary, then `[.!]?\s*$`.  The `\b` is evaluated
between the phrase's last character and the following character (a
position beyond the input counts as non-word). -/
def ackMatch (p : String) (l : List Char) : Bool :=
  match stripCI p.data l with
  | none => false
  | some rest =>
    let lastP := (p.data.getLast?).getD ' '
    let nextWord := match rest with
      | [] => false
      | c :: _ => isWordChar c
    (isWordChar lastP != nextWord) && ackEnd rest

/-- index.js `ACK_RE.test(text)`. -/
def isAckMessage (raw : String) : Bool := ackPhrases.any (fun p => ackMatch p raw.data)

/-- The interrogative leading words of `looksLikeQuestion`. -/
def questionWords : List String :=
  ["how", "what", "when", "where", "why", "which", "who", "can", "should",
   "do", "does", "did", "is", "are", "list", "steps", "process", "policy",
   "sop", "guide", "checklist"]

/-- Match one leading interrogative word with its `\b` boundary (all
the words end in a word character, so the boundary holds exactly when
the next character is absent or not a word character). -/
def qWordAt (w : String) (l : List Char) : Bool :=
  match stripCI w.data l with
  | none => false
  | some rest =>
    match rest with
    | [] => true
    | c :: _ => !isWordChar c

/-- index.js `looksLikeQuestion`:
`/(\?|^\s*(how|what|...)\b)/i.test(text)` — a question mark anywhere,
or a leading interrogative word after optional whitespace. -/
def looksLikeQuestion (text : String) : Bool :=
  text.data.contains '?' || questionWords.any (fun w => qWordAt w (dropWs text.data))

/-- index.js `/^sop:|^faq:/i.test(text)` in the trivial-message guard. -/
def startsSopFaq (t : String) : Bool :=
  (stripCI "sop:".data t.data).isSome || (stripCI "faq:".data t.data).isSome

/-- index.js forced-mode match `/^\s*(sop|faq)\s*:\s*(.+)$/i` (note:
unlike `getControlPrefix` of part 000 it allows whitespace before the
colon and requires a non-empty capture). -/
def matchForced (text : String) : Option (ControlMode × String) :=
  let l := dropWs text.data
  match stripCI "sop".data l with
  | some rest =>
    (match dropWs rest with
     | ':' :: r2 => (tailCapture1 r2).map (fun cap => (ControlMode.sop, (⟨cap⟩ : String)))
     | _ => none)
  | none =>
    match stripCI "faq".data l with
    | some rest =>
      (match dropWs rest with
       | ':' :: r2 => (tailCapture1 r2).map (fun cap => (ControlMode.faq, (⟨cap⟩ : String)))
       | _ => none)
    | none => none

/-! ### sopAliasHits (part 000) -/

/-- `s.title?.toLowerCase().includes(sub)`. -/
def titleHas (s : SopItem) (sub : String) : Bool := strIncludes (lowerStr s.title) sub

/-- The alias rule table of `sopAliasHits`: trigger key (searched in
the lowercased query) and title predicate. -/
def aliasRules : List (String × (SopItem → Bool)) :=
  [("listing to close", fun s => titleHas s "listing to close"),
   ("open house", fun s => titleHas s "open house"),
   ("circle calling", fun s => titleHas s "circle call"),
   ("homelight", fun s => titleHas s "homelight"),
   ("referral", fun s => titleHas s "referral"),
   ("zillow flex", fun s => titleHas s "zillow flex"),
   ("buyer pending", fun s => titleHas s "buyer pending"),
   ("onboarding az", fun s => titleHas s "exp az" || titleHas s "arizona"),
   ("onboarding nj", fun s => titleHas s "exp nj" || titleHas s "new jersey"),
   ("30/60/90", fun s => titleHas s "30/60/90" || titleHas s "agent success plan")]

/-- Match `/listing\s*to\s*close/` at the head of `l` (`l` is already
lowercased text). -/
def ltcAt (l : List Char) : Bool :=
  match stripLit "listing".data l with
  | some r1 =>
    (match stripLit "to".data (dropWs r1) with
     | some r2 => (stripLit "close".data (dropWs r2)).isSome
     | none => false)
  | none => false

/-- Unanchored `/listing\s*to\s*close/.test(text)`. -/
def containsLtc : List Char → Bool
  | [] => ltcAt []
  | c :: t => ltcAt (c :: t) || containsLtc t

/-- The final dedup filter of `sopAliasHits`:
`hits.filter(s => !seen.has((seen.add(s.title), s.title)))`.  The JS
comma operator runs `seen.add(s.title)` *before* the membership test,
so the test is always true and the filter keeps nothing; modelled
faithfully. -/
def dedupByTitleJs (hits : List SopItem) : List SopItem :=
  (hits.foldl (fun (st : List String × List SopItem) s =>
    let seen := s.title :: st.1
    (seen, if seen.contains s.title then st.2 else st.2 ++ [s])) ([], [])).2

/-- `sopAliasHits(q)` of part 000 (the SOP list is passed explicitly). -/
def sopAliasHits (sops : List SopItem) (q : String) : List SopItem :=
  let text := lowerStr q
  let hits := aliasRules.foldl (fun acc r =>
    if strIncludes text r.1 then acc ++ sops.filter r.2 else acc) []
  let hits2 := if hits.isEmpty && containsLtc text.data then
      hits ++ sops.filter (fun s => titleHas s "listing to close")
    else hits
  dedupByTitleJs hits2

/-! ### Query flows (handleQueryFlow of parts 000 and 001)

The flow result records the reply payload (if any) together with an
ordered trace of the knowledge-store queries and LLM calls performed,
so that routing-order claims can be stated. -/

inductive QStep where
  | faqQuery
  | sopAliasQuery
  | sopQuery
  | llmCall
deriving DecidableEq

inductive Reply where
  | refreshFaqAck
  | reloadSopsAck
  | faqHits (hits : List FaqItem)
  | sopHits (hits : List SopItem)
  | llmText
deriving DecidableEq

structure FlowOut where
  reply : Option Reply
  steps : List QStep
deriving DecidableEq

/-- The two knowledge collections held in module-level caches. -/
structure KState where
  faqCache : List FaqItem
  sops : List SopItem
deriving DecidableEq

/-- Blocks 3 and 4 of part 000 `handleQueryFlow`: the SOP fallback when
the user forced FAQ, then the LLM fallback.  (The JS `const sHits2` is
inlined.) -/
def flowTail2 (st : KState) (qText : String) (sopFirst : Bool) (tr : List QStep) : FlowOut :=
  if !sopFirst then
    if !(searchSOPs st.sops qText 3).isEmpty then
      ⟨some (.sopHits (searchSOPs st.sops qText 3)), tr ++ [.sopQuery]⟩
    else ⟨some .llmText, tr ++ [.sopQuery, .llmCall]⟩
  else ⟨some .llmText, tr ++ [.llmCall]⟩

/-- Block 2 of part 000 `handleQueryFlow`: the FAQ pass, guarded by
`if (FAQ_CACHE.length)`.  (The JS consts `{type, query}` and `fHits`
are inlined.) -/
def flowTail (st : KState) (qText : String) (sopFirst : Bool) (tr : List QStep) : FlowOut :=
  if !st.faqCache.isEmpty then
    if !(searchFaqs st.faqCache (parseTypeTag qText).2 3 (parseTypeTag qText).1).isEmpty then
      ⟨some (.faqHits (searchFaqs st.faqCache (parseTypeTag qText).2 3 (parseTypeTag qText).1)),
        tr ++ [.faqQuery]⟩
    else flowTail2 st qText sopFirst (tr ++ [.faqQuery])
  else flowTail2 st qText sopFirst tr

/-- Block 1 of part 000 `handleQueryFlow`, after the control prefix has
been parsed into `mt`: SOP-first (aliases then fuzzy) unless the user
forced FAQ (`sopFirst = mode !== 'faq'`), then the later blocks. -/
def routeWithMode (st : KState) (mt : Option ControlMode × String) : FlowOut :=
  if !(mt.1 == some ControlMode.faq) then
    if !((sopAliasHits st.sops mt.2).take 3).isEmpty then
      ⟨some (.sopHits ((sopAliasHits st.sops mt.2).take 3)), [.sopAliasQuery]⟩
    else
      if !(searchSOPs st.sops mt.2 3).isEmpty then
        ⟨some (.sopHits (searchSOPs st.sops mt.2 3)), [.sopAliasQuery, .sopQuery]⟩
      else flowTail st mt.2 (!(mt.1 == some ControlMode.faq)) [.sopAliasQuery, .sopQuery]
  else flowTail st mt.2 (!(mt.1 == some ControlMode.faq)) []

/-- `handleQueryFlow` of part 000: maintenance commands, control
prefix, SOP-first (aliases then fuzzy) unless the user forced FAQ,
then FAQ, then SOP fallback, then LLM. -/
def handleQueryFlow (st : KState) (rawText : String) : FlowOut :=
  let raw := trimStr rawText
  if raw = "" then ⟨none, []⟩
  else if isRefreshFaqCmd raw then ⟨some .refreshFaqAck, []⟩
  else if isReloadSopsCmd raw then ⟨some .reloadSopsAck, []⟩
  else routeWithMode st (getControlMode raw)

/-- Blocks 2 and 3 of part 001 `handleQueryFlow`: SOP search on the raw
text, then LLM fallback. -/
def flow1Tail (st : KState) (raw : String) (tr : List QStep) : FlowOut :=
  if !(searchSOPs st.sops raw 3).isEmpty then
    ⟨some (.sopHits (searchSOPs st.sops raw 3)), tr ++ [.sopQuery]⟩
  else ⟨some .llmText, tr ++ [.sopQuery, .llmCall]⟩

/-- `handleQueryFlow` of part 001: maintenance commands, FAQ first
(guarded by a non-empty cache), then SOPs, then LLM. -/
def handleQueryFlow1 (st : KState) (rawText : String) : FlowOut :=
  let raw := trimStr rawText
  if raw = "" then ⟨none, []⟩
  else if isRefreshFaqCmd raw then ⟨some .refreshFaqAck, []⟩
  else if isReloadSopsCmd raw then ⟨some .reloadSopsAck, []⟩
  else if !st.faqCache.isEmpty then
    if !(searchFaqs st.faqCache (parseTypeTag raw).2 3 (parseTypeTag raw).1).isEmpty then
      ⟨some (.faqHits (searchFaqs st.faqCache (parseTypeTag raw).2 3 (parseTypeTag raw).1)),
        [.faqQuery]⟩
    else flow1Tail st raw [.faqQuery]
  else flow1Tail st raw []

/-! ### Slack message handlers -/

/-- The fields of an inbound message event that the handlers read. -/
structure MsgEvent where
  text : String
  channelType : String
  botId : Option String
  subtype : Option String
deriving DecidableEq

inductive DmResult where
  | ignored
  | flowed (out : FlowOut)
deriving DecidableEq

/-- The part 001 `app.message` handler:
`if (!message || message.subtype || message.bot_id) return;`
`if (message.channel_type !== 'im') return;` then `handleQueryFlow`. -/
def dmMessageHandler (st : KState) (m : MsgEvent) : DmResult :=
  if m.subtype.isSome || m.botId.isSome then .ignored
  else if m.channelType = "im" then .flowed (handleQueryFlow1 st m.text)
  else .ignored

/-- The routing outcome of the index.js hybrid `app.message` handler. -/
inductive HybridDecision where
  | ignoreEmpty
  | ackReply
  | trivialPrompt
  | sopsRefreshed
  | faqRefreshed
  | answer (force : Option ControlMode) (q : String)
deriving DecidableEq

/-- The index.js hybrid `app.message` handler, in source order: trim
and drop empty text, the `ACK_RE` acknowledgement reply, the trivial
short-message guard, the two admin refresh commands, then the forced
`sop:`/`faq:` mode match and `docGroundedAnswer`. -/
def hybridHandler (msgText : String) : HybridDecision :=
  let text := trimStr msgText
  if text = "" then .ignoreEmpty
  else if isAckMessage text then .ackReply
  else if decide ((splitWs text).length < 3) && !looksLikeQuestion text
          && !startsSopFaq text then .trivialPrompt
  else if isRefreshSopsIdx text then .sopsRefreshed
  else if isRefreshFaqIdx text then .faqRefreshed
  else match matchForced text with
    | some (f, q) => .answer (some f) q
    | none => .answer none text

/-- The index.js hybrid handler as a function of the message event: the
source reads only `message.text` — there is no bot-sender or subtype
guard in this revision. -/
def hybridMessageHandler (m : MsgEvent) : HybridDecision := hybridHandler m.text

/-! ### Generative fallback adapter (index.js llmAnswer) -/

structure ChatMessage where
  content : Option String
deriving DecidableEq

structure ChatChoice where
  message : Option ChatMessage
deriving DecidableEq

structure ChatResponse where
  choices : List ChatChoice
deriving DecidableEq

/-- The optional chain `resp.choices?.[0]?.message?.content`. -/
def extractContent (r : ChatResponse) : Option String :=
  match r.choices.head? with
  | some ch =>
    (match ch.message with
     | some m => m.content
     | none => none)
  | none => none

def llmErrorReply : String := "I\x27m having trouble reaching the assistant right now."

def llmEmptyReply : String := "I couldn\x27t find a confident answer."

/-- index.js `llmAnswer({text})`: one call to the model (modelled as an
oracle; a thrown JS exception is the `Except.error` case caught by the
`try`/`catch` of the source), returning the trimmed content when it is
non-empty, the fixed no-answer string when the response is malformed or
empty, and the fixed error string when the call fails. -/
def llmAnswer (call : String → Except String ChatResponse) (text : String) : String :=
  match call text with
  | .error _ => llmErrorReply
  | .ok resp =>
    match extractContent resp with
    | none => llmEmptyReply
    | some c => if trimStr c = "" then llmEmptyReply else trimStr c

/-! ### Knowledge refresh operations (index.js) -/

/-- Result of a refresh: the new cache contents and whether a warning
was logged (`console.warn`). -/
structure RefreshResult (α : Type) where
  cache : α
  warned : Bool
deriving DecidableEq

/-- `String(r?.[i] ?? '')`: read cell `i` of a row, absent cells read
as the empty string. -/
def rowCell (r : List String) (i : Nat) : String := r.getD i ""

/-- One row of the index.js `refreshFaqCache` mapping: trim the three
cells, drop the row when question or answer is empty, otherwise build
the FAQ item with id `faq-(i+1)` from the pre-filter row index. -/
def rowToFaq (i : Nat) (r : List String) : Option FaqItem :=
  let type := trimStr (rowCell r 0)
  let q := trimStr (rowCell r 1)
  let a := trimStr (rowCell r 2)
  if q = "" || a = "" then none
  else some ⟨"faq-" ++ toString (i + 1), type, q, a⟩

/-- index.js `refreshFaqCache`: when the FAQ layer is not configured
the cache is cleared; otherwise the sheet fetch (OAuth plus the Sheets
API call, modelled as one oracle) either fails — the `catch` logs a
warning and the previous cache is left untouched — or succeeds and the
cache is replaced by the mapped and filtered rows. -/
def refreshFaqCache (hasConfig : Bool) (fetch : Except String (List (List String)))
    (old : List FaqItem) : RefreshResult (List FaqItem) :=
  if !hasConfig then ⟨[], false⟩
  else
    match fetch with
    | .error _ => ⟨old, true⟩
    | .ok rows => ⟨rows.enum.filterMap (fun p => rowToFaq p.1 p.2), false⟩

def sopDocUrl (id : String) : String :=
  "https://docs.google.com/document/d/" ++ id ++ "/view"

/-- Build one SOP cache entry of `refreshSopsFromDrive` from a file id,
a file name and the extracted document text: the summary is the first
200 characters with newlines replaced by spaces (plus an ellipsis when
truncated). -/
def mkSopFromDoc (id name text : String) : SopItem :=
  { id := id
    title := name
    summary := (⟨(text.data.take 200).map (fun c => if c = '\n' then ' ' else c)⟩ : String)
      ++ (if 200 < text.data.length then "…" else "")
    tags := []
    content := text
    url := sopDocUrl id }

/-- index.js `refreshSopsFromDrive`: without a folder id the SOP layer
is disabled (warns, clears); otherwise the Drive listing (OAuth plus
the Drive API call, one oracle) either fails — the outer `catch` logs a
warning and the previous cache is untouched — or yields files, each of
which is fetched in turn (a per-document failure only skips that
document).  The Google-Docs body traversal (`docText`) and whitespace
cleanup are collapsed into the per-document oracle `getDocText`, which
yields the final extracted text; they contain none of the logic the
claims are about. -/
def refreshSopsFromDrive (folderId : Option String)
    (listFiles : Except String (List (String × String)))
    (getDocText : String → Except String String)
    (old : List SopItem) : RefreshResult (List SopItem) :=
  match folderId with
  | none => ⟨[], true⟩
  | some _ =>
    match listFiles with
    | .error _ => ⟨old, true⟩
    | .ok files =>
      ⟨files.foldl (fun out f =>
        match getDocText f.1 with
        | .error _ => out
        | .ok text => out ++ [mkSopFromDoc f.1 f.2 text]) [], false⟩

/-! ## Helper lemmas -/

theorem occursIn_nil_needle (l : List Char) : occursIn [] l = true := by
  cases l <;> simp [occursIn, prefixAt]

theorem strIncludes_empty_needle (hay : String) : strIncludes hay "" = true :=
  occursIn_nil_needle hay.data

theorem termHits_nil_q (ts : List String) (w : Nat) : termHits [] ts w = 0 := by
  induction ts with
  | nil => rfl
  | cons t ts ih => simp [termHits, ih]

theorem termHits_count (qT ts : List String) (w : Nat) :
    termHits qT ts w = w * (ts.filter (fun t => qT.contains t)).length := by
  induction ts with
  | nil => simp [termHits]
  | cons t ts ih =>
    simp only [termHits, List.filter_cons]
    by_cases h : qT.contains t = true
    · rw [if_pos h, if_pos h, ih, List.length_cons, Nat.mul_succ]
      omega
    · rw [if_neg h, if_neg h, ih]
      omega

theorem termHits_congr (qT qT2 ts : List String) (w : Nat)
    (h : ∀ t, qT.contains t = qT2.contains t) :
    termHits qT ts w = termHits qT2 ts w := by
  induction ts with
  | nil => rfl
  | cons t ts ih =>
    simp only [termHits]
    rw [h t, ih]

theorem findStep_stay (q : String) (l : List FaqItem) (acc : Option FaqItem × Nat)
    (h : ∀ y ∈ l, findFaqScore q y ≤ acc.2) :
    l.foldl (findStep q) acc = acc := by
  induction l with
  | nil => rfl
  | cons y ys ih =>
    have hy : findFaqScore q y ≤ acc.2 := h y (by simp)
    have hstep : findStep q acc y = acc := by
      simp only [findStep]
      rw [if_neg (by omega)]
    rw [List.foldl_cons, hstep]
    exact ih (fun z hz => h z (by simp [hz]))

theorem findStep_inv (q : String) (l : List FaqItem) (acc : Option FaqItem × Nat)
    (h : acc = (none, 0) ∨ ∃ it, acc.1 = some it ∧ acc.2 = findFaqScore q it ∧ 0 < acc.2) :
    (l.foldl (findStep q) acc) = (none, 0)
    ∨ ∃ it, (l.foldl (findStep q) acc).1 = some it
        ∧ (l.foldl (findStep q) acc).2 = findFaqScore q it
        ∧ 0 < (l.foldl (findStep q) acc).2 := by
  induction l generalizing acc with
  | nil => simpa using h
  | cons y ys ih =>
    rw [List.foldl_cons]
    apply ih
    simp only [findStep]
    by_cases hc : acc.2 < findFaqScore q y
    · rw [if_pos hc]
      right
      exact ⟨y, rfl, rfl, by omega⟩
    · rw [if_neg hc]
      exact h

theorem sopStep_inv (q : String) (l : List SopItem) (acc : Option SopItem × Nat)
    (h : acc = (none, 0) ∨ ∃ it, acc.1 = some it ∧ acc.2 = sopFindScore q it ∧ 0 < acc.2) :
    (l.foldl (sopStep q) acc) = (none, 0)
    ∨ ∃ it, (l.foldl (sopStep q) acc).1 = some it
        ∧ (l.foldl (sopStep q) acc).2 = sopFindScore q it
        ∧ 0 < (l.foldl (sopStep q) acc).2 := by
  induction l generalizing acc with
  | nil => simpa using h
  | cons y ys ih =>
    rw [List.foldl_cons]
    apply ih
    simp only [sopStep]
    by_cases hc : acc.2 < sopFindScore q y
    · rw [if_pos hc]
      right
      exact ⟨y, rfl, rfl, by omega⟩
    · rw [if_neg hc]
      exact h

theorem findFold_lt (q : String) (l : List FaqItem) (sx : Nat)
    (acc : Option FaqItem × Nat) (hacc : acc.2 < sx)
    (h : ∀ y ∈ l, findFaqScore q y < sx) :
    (l.foldl (findStep q) acc).2 < sx := by
  induction l generalizing acc with
  | nil => simpa using hacc
  | cons y ys ih =>
    rw [List.foldl_cons]
    apply ih
    · have hy : findFaqScore q y < sx := h y (by simp)
      simp only [findStep]
      by_cases hc : acc.2 < findFaqScore q y
      · rw [if_pos hc]
        exact hy
      · rw [if_neg hc]
        exact hacc
    · exact fun z hz => h z (by simp [hz])

theorem findFaqScore_empty_q (y : FaqItem) : findFaqScore "" y = 10 := by
  simp [findFaqScore, strIncludes_empty_needle, splitWs, splitWsAux, countHits]

/-! ## Claim C1 -/

/-- Claim C1 counterexample: the relevance scorer applied to the empty
query does not return 0.  In JavaScript every string contains the empty
string, so the verbatim-boost branches fire: the score is the constant
6 + 2 = 8, not 0. -/
theorem c1_counterexample :
    scoreItem "" (Doc.mk "Open House Checklist" "s" "c") = 8
    ∧ scoreItem "" (Doc.mk "Open House Checklist" "s" "c") ≠ 0 := by
  constructor
  · decide
  · decide

/-- Claim C1, amended: on the empty query the term loops contribute
nothing, but both containment bonuses fire for every item (the empty
string is a substring of every string), so `scoreItem` returns the
constant 8; and `findFAQ` on the empty query gives every item the
containment bonus 10, hence returns the *first* item of a non-empty
collection rather than no item. -/
theorem c1_amended :
    (∀ item : Doc, scoreItem "" item = 8)
    ∧ (∀ (x : FaqItem) (xs : List FaqItem), findFAQ "" (x :: xs) = some x) := by
  constructor
  · intro item
    show termHits (tokenize "") _ 4 + termHits (tokenize "") _ 3 + termHits (tokenize "") _ 1
      + _ + _ = 8
    have ht : tokenize "" = [] := rfl
    have hl0 : lowerStr "" = "" := rfl
    rw [ht, hl0, termHits_nil_q, termHits_nil_q, termHits_nil_q,
      if_pos (strIncludes_empty_needle _), if_pos (strIncludes_empty_needle _)]
  · intro x xs
    show (List.foldl (findStep (lowerStr "")) (none, 0) (x :: xs)).1 = some x
    have hl : lowerStr "" = "" := rfl
    rw [hl, List.foldl_cons]
    have hx : findStep "" (none, 0) x = (some x, 10) := by
      simp [findStep, findFaqScore_empty_q]
    rw [hx, findStep_stay "" xs (some x, 10)
      (fun y _ => by rw [findFaqScore_empty_q])]

/-! ## Claim C4 -/

/-- Claim C4 counterexample: the field weight is added once per
*occurrence* of a query term in the field's token list, not once per
distinct term.  The two items have the same set of distinct matching
terms and identical containment bonuses, yet the one whose title
repeats the term scores 4 more (4+4+6 = 14 versus 4+6 = 10); under the
claimed per-distinct-term accumulation both would score 10. -/
theorem c4_counterexample :
    scoreItem "apple" (Doc.mk "apple apple" "" "") = 14
    ∧ scoreItem "apple" (Doc.mk "apple" "" "") = 10 := by
  constructor
  · decide
  · decide

/-- Claim C4, amended: the query's terms are collapsed to a set (the
score depends only on membership in the query token list), but each
field's weight accumulates once per occurrence of a matching token in
the field's token list: the total is
weight × (number of field-token occurrences belonging to the query)
summed over the three fields, plus the containment bonuses. -/
theorem c4_amended :
    (∀ (q : String) (item : Doc), scoreItem q item =
        4 * ((tokenize item.title).filter (fun t => (tokenize q).contains t)).length
      + 3 * ((tokenize item.summary).filter (fun t => (tokenize q).contains t)).length
      + 1 * ((tokenize item.content).filter (fun t => (tokenize q).contains t)).length
      + (if strIncludes (lowerStr item.title) (lowerStr q) then 6 else 0)
      + (if strIncludes (lowerStr item.content) (lowerStr q) then 2 else 0))
    ∧ (∀ (qT qT2 ts : List String) (w : Nat),
        (∀ t, qT.contains t = qT2.contains t) →
        termHits qT ts w = termHits qT2 ts w) := by
  constructor
  · intro q item
    show termHits (tokenize q) _ 4 + termHits (tokenize q) _ 3 + termHits (tokenize q) _ 1
      + _ + _ = _
    rw [termHits_count, termHits_count, termHits_count]
  · exact termHits_congr

/-- Witness for the amended C4: a concrete instantiation discharging
the membership-agreement hypothesis. -/
theorem c4_witness :
    scoreItem "apple" (Doc.mk "apple apple" "" "") =
      4 * (((tokenize "apple apple").filter (fun t => (tokenize "apple").contains t)).length)
      + 3 * 0 + 1 * 0 + 6 + 0
    ∧ termHits ["a"] ["a", "b"] 4 = termHits ["a"] ["a", "b"] 4 := by
  constructor
  · have h := c4_amended.1 "apple" (Doc.mk "apple apple" "" "")
    simpa using h
  · exact c4_amended.2 ["a"] ["a"] ["a", "b"] 4 (fun _ => rfl)

/-! ## Claim C8 -/

/-- Claim C8: the generative fallback adapter never throws outward (it
is a total function into `String` here) — on any failure of the model
call it returns the fixed apologetic string, and its result is never
the empty string, so the chat transport always receives some text.
A malformed or empty response yields the fixed no-answer string. -/
theorem c8_llm_adapter :
    ∀ (call : String → Except String ChatResponse) (text : String),
      (∀ e, call text = Except.error e → llmAnswer call text = llmErrorReply)
      ∧ (∀ resp, call text = Except.ok resp → extractContent resp = none →
          llmAnswer call text = llmEmptyReply)
      ∧ llmAnswer call text ≠ "" := by
  intro call text
  refine ⟨?_, ?_, ?_⟩
  · intro e he
    simp [llmAnswer, he]
  · intro resp hr hc
    simp [llmAnswer, hr, hc]
  · intro hempty
    rcases hcl : call text with e | resp
    · have hv : llmAnswer call text = llmErrorReply := by simp [llmAnswer, hcl]
      rw [hv] at hempty
      exact absurd hempty (by decide)
    · rcases hc : extractContent resp with _ | c
      · have hv : llmAnswer call text = llmEmptyReply := by simp [llmAnswer, hcl, hc]
        rw [hv] at hempty
        exact absurd hempty (by decide)
      · by_cases ht : trimStr c = ""
        · have hv : llmAnswer call text = llmEmptyReply := by simp [llmAnswer, hcl, hc, ht]
          rw [hv] at hempty
          exact absurd hempty (by decide)
        · have hv : llmAnswer call text = trimStr c := by simp [llmAnswer, hcl, hc, ht]
          rw [hv] at hempty
          exact ht hempty

/-- Witness for C8 at a concrete failing oracle. -/
theorem c8_witness :
    llmAnswer (fun _ => Except.error "boom") "hello" = llmErrorReply :=
  (c8_llm_adapter (fun _ => Except.error "boom") "hello").1 "boom" rfl

/-! ## Claim C9 -/

/-- Claim C9: when a refresh operation's fetch step fails, the previous
snapshot is retained unchanged and remains fully queryable (both the
best-match and ranked searches give identical results), and the failure
is logged (the `warned` flag); the embedded refresh is a total function
— nothing is raised to the caller. -/
theorem c9_refresh_failure :
    (∀ (fetch : Except String (List (List String))) (old : List FaqItem) e,
        fetch = Except.error e →
          refreshFaqCache true fetch old = ⟨old, true⟩
          ∧ (∀ q, findFAQ q (refreshFaqCache true fetch old).cache = findFAQ q old)
          ∧ (∀ q lim wt, searchFaqs (refreshFaqCache true fetch old).cache q lim wt
              = searchFaqs old q lim wt))
    ∧ (∀ (fid : String) (listFiles : Except String (List (String × String)))
          (getDocText : String → Except String String) (old : List SopItem) e,
        listFiles = Except.error e →
          refreshSopsFromDrive (some fid) listFiles getDocText old = ⟨old, true⟩
          ∧ (∀ q, findSOP q (refreshSopsFromDrive (some fid) listFiles getDocText old).cache
              = findSOP q old)
          ∧ (∀ q lim, searchSOPs (refreshSopsFromDrive (some fid) listFiles getDocText old).cache q lim
              = searchSOPs old q lim)) := by
  constructor
  · intro fetch old e he
    subst he
    exact ⟨rfl, fun _ => rfl, fun _ _ _ => rfl⟩
  · intro fid listFiles getDocText old e he
    subst he
    exact ⟨rfl, fun _ => rfl, fun _ _ => rfl⟩

/-- Witness for C9 at a concrete failing fetch. -/
theorem c9_witness :
    refreshFaqCache true (Except.error "network down") [FaqItem.mk "faq-1" "" "q" "a"]
      = ⟨[FaqItem.mk "faq-1" "" "q" "a"], true⟩
    ∧ refreshSopsFromDrive (some "folder") (Except.error "quota")
        (fun _ => Except.ok "text") [SopItem.mk "d1" "A" "" [] "body" "url"]
      = ⟨[SopItem.mk "d1" "A" "" [] "body" "url"], true⟩ :=
  ⟨(c9_refresh_failure.1 (Except.error "network down") [FaqItem.mk "faq-1" "" "q" "a"]
      "network down" rfl).1,
   (c9_refresh_failure.2 "folder" (Except.error "quota") (fun _ => Except.ok "text")
      [SopItem.mk "d1" "A" "" [] "body" "url"] "quota" rfl).1⟩

/-! ## Claim C2 -/

/-- Claim C2 is a code bug: in the index.js hybrid handler the trivial
short-message guard runs *before* the admin refresh branches, and every
maintenance phrase ("refresh faq", "refresh sops") has exactly two
whitespace-separated tokens, contains no question mark, starts with no
interrogative word and carries no `sop:`/`faq:` prefix — so the guard
fires first and replies with the nudge message.  The refresh branches
match these very phrases (third and fourth conjuncts) but are
unreachable: the handler never returns the refresh acknowledgement. -/
theorem c2_code_bug :
    isRefreshFaqIdx "refresh faq" = true
    ∧ isRefreshSopsIdx "refresh sops" = true
    ∧ hybridHandler "refresh faq" = HybridDecision.trivialPrompt
    ∧ hybridHandler "refresh sops" = HybridDecision.trivialPrompt
    ∧ hybridHandler "Refresh FAQ" = HybridDecision.trivialPrompt := by
  refine ⟨?_, ?_, ?_, ?_, ?_⟩ <;> decide

/-! ## Claim C5 -/

theorem candFrom_some (cache : List Doc) (kind : DocKind) (q : String)
    (c : DocKind × Doc × Nat) (h : candFrom cache kind q = some c) :
    6 ≤ c.2.2 ∧ c.1 = kind := by
  unfold candFrom at h
  rcases hb : bestMatchFrom cache q with _ | b
  · rw [hb] at h
    cases h
  · rw [hb] at h
    have h2 : (if 6 ≤ b.2 then some (kind, b.1, b.2) else none) = some c := h
    by_cases h6 : 6 ≤ b.2
    · rw [if_pos h6] at h2
      injection h2 with h3
      rw [← h3]
      exact ⟨h6, rfl⟩
    · rw [if_neg h6] at h2
      cases h2

theorem decideCand_grounded (q : String) (c : Option (DocKind × Doc × Nat))
    (k : DocKind) (it : Doc) (s : Nat)
    (h : decideCand q c = DocDecision.grounded k it s) : c = some (k, it, s) := by
  rcases c with _ | ⟨k0, it0, s0⟩
  · exact absurd h (by simp [decideCand])
  · simp only [decideCand] at h
    injection h with h1 h2 h3
    rw [h1, h2, h3]

theorem docGrounded_grounded (sopC faqC : List Doc) (force : Option DocKind)
    (t : String) (k : DocKind) (it : Doc) (s : Nat)
    (h : docGroundedAnswer sopC faqC force t = DocDecision.grounded k it s) :
    6 ≤ s ∧ (k = DocKind.sop → (force.isNone || force == some DocKind.sop) = true) := by
  by_cases hq : trimStr t = ""
  · unfold docGroundedAnswer at h
    rw [if_pos hq] at h
    cases h
  · unfold docGroundedAnswer at h
    rw [if_neg hq] at h
    have hc := decideCand_grounded _ _ _ _ _ h
    set w1 := (force.isNone || force == some DocKind.sop) with hw1
    set w2 := (force.isNone || force == some DocKind.faq) with hw2
    rcases hs1 : (if w1 && !sopC.isEmpty then candFrom sopC DocKind.sop (trimStr t) else none)
      with _ | c1
    · rw [hs1] at hc
      have hc2 : (if w2 && !faqC.isEmpty then candFrom faqC DocKind.faq (trimStr t) else none)
          = some (k, it, s) := by
        simpa [firstCand] using hc
      by_cases hcw : (w2 && !faqC.isEmpty) = true
      · rw [if_pos hcw] at hc2
        obtain ⟨h6, hk⟩ := candFrom_some _ _ _ _ hc2
        refine ⟨h6, ?_⟩
        intro hks
        rw [hks] at hk
        cases hk
      · rw [if_neg hcw] at hc2
        cases hc2
    · rw [hs1] at hc
      have hc1 : c1 = (k, it, s) := by
        simpa [firstCand] using hc
      rw [hc1] at hs1
      by_cases hcw : (w1 && !sopC.isEmpty) = true
      · rw [if_pos hcw] at hs1
        obtain ⟨h6, _⟩ := candFrom_some _ _ _ _ hs1
        refine ⟨h6, ?_⟩
        intro _
        exact (Bool.and_eq_true _ _ |>.mp hcw).1
      · rw [if_neg hcw] at hs1
        cases hs1

/-- Claim C5 counterexample: on the *empty* query, `findFAQ` does not
return none — every item's haystack contains the empty string (+10), so
the loop selects the first item of a non-empty collection. -/
theorem c5_counterexample :
    findFAQ "" [FaqItem.mk "faq-1" "" "What is x" "y"]
      = some (FaqItem.mk "faq-1" "" "What is x" "y") := by
  decide

/-- Claim C5, amended: `findFAQ`/`findSOP` never return an item whose
score is below their implicit positive threshold (a returned item
scores strictly more than 0), and return none on an empty collection;
`docGroundedAnswer` never selects a grounded candidate scoring below
its threshold 6 and selects nothing on an empty or whitespace query.
The original empty-query part of the claim is false for
`findFAQ`/`findSOP` (see the counterexample): the empty-query guard
lives in `docGroundedAnswer`, not in the per-collection best-match
loops. -/
theorem c5_amended :
    (∀ (q : String) (cache : List FaqItem) (it : FaqItem),
        findFAQ q cache = some it → 0 < findFaqScore (lowerStr q) it)
    ∧ (∀ q : String, findFAQ q [] = none)
    ∧ (∀ (q : String) (cache : List SopItem) (it : SopItem),
        findSOP q cache = some it → 0 < sopFindScore (lowerStr q) it)
    ∧ (∀ q : String, findSOP q [] = none)
    ∧ (∀ (sopC faqC : List Doc) (force : Option DocKind) (t : String)
          (k : DocKind) (it : Doc) (s : Nat),
        docGroundedAnswer sopC faqC force t = DocDecision.grounded k it s → 6 ≤ s)
    ∧ (∀ (sopC faqC : List Doc) (force : Option DocKind) (t : String),
        trimStr t = "" → docGroundedAnswer sopC faqC force t = DocDecision.prompt) := by
  refine ⟨?_, ?_, ?_, ?_, ?_, ?_⟩
  · intro q cache it h
    have hinv := findStep_inv (lowerStr q) cache (none, 0) (Or.inl rfl)
    unfold findFAQ at h
    rcases hinv with hz | ⟨it2, h1, h2, h3⟩
    · rw [hz] at h
      cases h
    · rw [h1] at h
      cases h
      rw [h2] at h3
      exact h3
  · intro q
    rfl
  · intro q cache it h
    have hinv := sopStep_inv (lowerStr q) cache (none, 0) (Or.inl rfl)
    unfold findSOP at h
    rcases hinv with hz | ⟨it2, h1, h2, h3⟩
    · rw [hz] at h
      cases h
    · rw [h1] at h
      cases h
      rw [h2] at h3
      exact h3
  · intro q
    rfl
  · intro sopC faqC force t k it s h
    exact (docGrounded_grounded sopC faqC force t k it s h).1
  · intro sopC faqC force t hq
    unfold docGroundedAnswer
    rw [if_pos hq]

/-- Witness for the amended C5 at concrete inputs. -/
theorem c5_witness :
    0 < findFaqScore (lowerStr "commission")
        (FaqItem.mk "faq-1" "" "What is the commission split?" "60/40 for year one.")
    ∧ docGroundedAnswer [] [] none "   " = DocDecision.prompt :=
  ⟨c5_amended.1 "commission"
      [FaqItem.mk "faq-1" "" "What is the commission split?" "60/40 for year one."]
      (FaqItem.mk "faq-1" "" "What is the commission split?" "60/40 for year one.")
      (by decide),
   c5_amended.2.2.2.2.2 [] [] none "   " (by decide)⟩

/-! ## Claim C10 -/

theorem bestFold_stay (q : String) (l : List Doc) (b : Doc) (s : Nat)
    (h : ∀ y ∈ l, scoreItem q y ≤ s) :
    l.foldl (bestStep q) (some (b, s)) = some (b, s) := by
  induction l with
  | nil => rfl
  | cons y ys ih =>
    have hy : scoreItem q y ≤ s := h y (by simp)
    have hstep : bestStep q (some (b, s)) y = some (b, s) := by
      simp only [bestStep]
      rw [if_neg (by omega)]
    rw [List.foldl_cons, hstep]
    exact ih (fun z hz => h z (by simp [hz]))

theorem bestFold_lt (q : String) (l : List Doc) (sx : Nat)
    (acc : Option (Doc × Nat))
    (hacc : acc = none ∨ ∃ b, acc = some b ∧ b.2 < sx)
    (h : ∀ y ∈ l, scoreItem q y < sx) :
    l.foldl (bestStep q) acc = none
    ∨ ∃ b, l.foldl (bestStep q) acc = some b ∧ b.2 < sx := by
  induction l generalizing acc with
  | nil => simpa using hacc
  | cons y ys ih =>
    rw [List.foldl_cons]
    apply ih
    · have hy : scoreItem q y < sx := h y (by simp)
      rcases hacc with rfl | ⟨b, rfl, hb⟩
      · right
        exact ⟨(y, scoreItem q y), rfl, hy⟩
      · right
        simp only [bestStep]
        by_cases hc : b.2 < scoreItem q y
        · rw [if_pos hc]
          exact ⟨(y, scoreItem q y), rfl, hy⟩
        · rw [if_neg hc]
          exact ⟨b, rfl, hb⟩
    · exact fun z hz => h z (by simp [hz])

/-- Claim C10: when several items tie for the maximum score, the
best-match loops return the earliest such item in insertion order — a
later item replaces the running best only when its score is *strictly*
greater.  Stated for any decomposition `pre ++ x :: post` where `x`
strictly beats everything before it and is not strictly beaten by
anything after it; for `findFAQ` the winner must additionally clear the
positive initial threshold. -/
theorem c10_first_max :
    (∀ (q : String) (pre post : List Doc) (x : Doc),
      (∀ y ∈ pre, scoreItem q y < scoreItem q x) →
      (∀ y ∈ post, scoreItem q y ≤ scoreItem q x) →
      bestMatchFrom (pre ++ x :: post) q = some (x, scoreItem q x))
    ∧ (∀ (q : String) (pre post : List FaqItem) (x : FaqItem),
      (∀ y ∈ pre, findFaqScore (lowerStr q) y < findFaqScore (lowerStr q) x) →
      0 < findFaqScore (lowerStr q) x →
      (∀ y ∈ post, findFaqScore (lowerStr q) y ≤ findFaqScore (lowerStr q) x) →
      findFAQ q (pre ++ x :: post) = some x) := by
  constructor
  · intro q pre post x hpre hpost
    have hfold : (pre ++ x :: post).foldl (bestStep q) none = some (x, scoreItem q x) := by
      rw [List.foldl_append]
      have hp := bestFold_lt q pre (scoreItem q x) none (Or.inl rfl) hpre
      have hx : bestStep q (pre.foldl (bestStep q) none) x = some (x, scoreItem q x) := by
        rcases hp with hz | ⟨b, hb, hlt⟩
        · rw [hz]
          rfl
        · rw [hb]
          simp only [bestStep]
          rw [if_pos hlt]
      rw [List.foldl_cons, hx]
      exact bestFold_stay q post x (scoreItem q x) hpost
    rcases pre with _ | ⟨p, pre⟩
    · exact hfold
    · exact hfold
  · intro q pre post x hpre hx hpost
    unfold findFAQ
    rw [List.foldl_append]
    have hp := findFold_lt (lowerStr q) pre (findFaqScore (lowerStr q) x) (none, 0)
      (by simpa using hx) hpre
    have hxs : findStep (lowerStr q) (pre.foldl (findStep (lowerStr q)) (none, 0)) x
        = (some x, findFaqScore (lowerStr q) x) := by
      simp only [findStep]
      rw [if_pos hp]
    rw [List.foldl_cons, hxs, findStep_stay _ _ _ hpost]

/-- Witness for C10: two identically scored items — the first wins. -/
theorem c10_witness :
    bestMatchFrom [Doc.mk "a" "" "", Doc.mk "a" "" ""] "a"
      = some (Doc.mk "a" "" "", scoreItem "a" (Doc.mk "a" "" ""))
    ∧ findFAQ "a" [FaqItem.mk "1" "" "a" "b", FaqItem.mk "2" "" "a" "b"]
      = some (FaqItem.mk "1" "" "a" "b") :=
  ⟨c10_first_max.1 "a" [] [Doc.mk "a" "" ""] (Doc.mk "a" "" "")
      (by intro y hy; cases hy)
      (by
        intro y hy
        have : y = Doc.mk "a" "" "" := by simpa using hy
        rw [this]),
   c10_first_max.2 "a" [] [FaqItem.mk "2" "" "a" "b"] (FaqItem.mk "1" "" "a" "b")
      (by intro y hy; cases hy)
      (by decide)
      (by
        intro y hy
        have : y = FaqItem.mk "2" "" "a" "b" := by simpa using hy
        rw [this]
        decide)⟩

/-! ## Claim C7 -/

/-- Claim C7 counterexample: the index.js hybrid handler has no
bot-sender guard — a message event whose sender is a bot (`bot_id`
set) with non-empty text is processed and answered (here with the
acknowledgement reply), not ignored. -/
theorem c7_counterexample :
    (MsgEvent.mk "thanks" "im" (some "B99") none).botId.isSome = true
    ∧ hybridMessageHandler (MsgEvent.mk "thanks" "im" (some "B99") none)
        = HybridDecision.ackReply := by
  constructor
  · rfl
  · decide

/-- Claim C7, amended: the part 001 DM handler ignores events from bot
senders (and events with a subtype, or outside direct messages), and on
empty/whitespace text both revisions do nothing — the part 001 flow
produces no reply, no knowledge-store query and no generative call
(empty step trace), and the index.js hybrid handler returns its ignore
outcome before any other processing.  The index.js hybrid handler
itself performs no bot-sender check (see the counterexample); only the
part 001 handler guard filters bot senders. -/
theorem c7_amended :
    (∀ (st : KState) (m : MsgEvent), m.botId.isSome = true →
        dmMessageHandler st m = DmResult.ignored)
    ∧ (∀ (st : KState) (m : MsgEvent), trimStr m.text = "" →
        dmMessageHandler st m = DmResult.ignored
        ∨ dmMessageHandler st m = DmResult.flowed ⟨none, []⟩)
    ∧ (∀ t : String, trimStr t = "" → hybridHandler t = HybridDecision.ignoreEmpty) := by
  refine ⟨?_, ?_, ?_⟩
  · intro st m hb
    unfold dmMessageHandler
    rw [if_pos (by simp [hb])]
  · intro st m ht
    unfold dmMessageHandler
    by_cases h1 : (m.subtype.isSome || m.botId.isSome) = true
    · rw [if_pos h1]
      exact Or.inl rfl
    · rw [if_neg h1]
      by_cases h2 : m.channelType = "im"
      · rw [if_pos h2]
        right
        have hflow : handleQueryFlow1 st m.text = ⟨none, []⟩ := by
          unfold handleQueryFlow1
          rw [if_pos ht]
        rw [hflow]
      · rw [if_neg h2]
        exact Or.inl rfl
  · intro t ht
    unfold hybridHandler
    rw [if_pos ht]

/-- Witness for the amended C7 at a concrete empty-text event. -/
theorem c7_witness :
    dmMessageHandler ⟨[], []⟩ (MsgEvent.mk "B1" "im" (some "B1") none) = DmResult.ignored
    ∧ hybridHandler "   " = HybridDecision.ignoreEmpty :=
  ⟨c7_amended.1 ⟨[], []⟩ (MsgEvent.mk "B1" "im" (some "B1") none) rfl,
   c7_amended.2.2 "   " (by decide)⟩

/-! ## Claim C3 -/

theorem ws_toLower {c : Char} (h : c.isWhitespace = true) : c.toLower = c := by
  have h4 := h
  simp only [Char.isWhitespace, Bool.or_eq_true, decide_eq_true_eq] at h4
  rcases h4 with ((rfl | rfl) | rfl) | rfl <;> decide

theorem ws_toLower_ne (c : Char) (hw : c.isWhitespace = true) (d : Char)
    (hd : d.isWhitespace = false) : c.toLower ≠ d := by
  rw [ws_toLower hw]
  intro he
  rw [he] at hw
  rw [hw] at hd
  cases hd

theorem stripCI_head (p : Char) (ps : List Char) (l : List Char) (r : List Char)
    (h : stripCI (p :: ps) l = some r) : ∃ c t, l = c :: t ∧ c.toLower = p := by
  cases l with
  | nil => cases h
  | cons c t =>
    simp only [stripCI] at h
    by_cases hc : c.toLower = p
    · exact ⟨c, t, rfl, hc⟩
    · rw [if_neg hc] at h
      cases h

theorem stripCI_cons_ne (p : Char) (ps : List Char) (c : Char) (t : List Char)
    (h : c.toLower ≠ p) : stripCI (p :: ps) (c :: t) = none := by
  simp only [stripCI]
  rw [if_neg h]

/-- A message that parses to the `faq:` control mode can never be a
maintenance command: the maintenance regexes are anchored at the very
first character and require it to lower to `r` or `s`, while a `faq:`
match means the first non-whitespace character lowers to `f`. -/
theorem ctrlFaq_not_maintenance (raw : String)
    (h : (getControlMode raw).1 = some ControlMode.faq) :
    isRefreshFaqCmd raw = false ∧ isReloadSopsCmd raw = false := by
  have hfq : ∃ rest, stripCI "faq:".data (dropWs raw.data) = some rest := by
    simp only [getControlMode] at h
    rcases hs : stripCI "sop:".data (dropWs raw.data) with _ | rest
    · rw [hs] at h
      rcases hf : stripCI "faq:".data (dropWs raw.data) with _ | rest2
      · rw [hf] at h
        simp at h
      · exact ⟨rest2, rfl⟩
    · rw [hs] at h
      have h2 : (match tailCapture rest with
          | some cap => ((some ControlMode.sop : Option ControlMode), (⟨cap⟩ : String))
          | none => ((none : Option ControlMode), raw)).1 = some ControlMode.faq := h
      rcases hc : tailCapture rest with _ | cap
      · rw [hc] at h2
        simp at h2
      · rw [hc] at h2
        simp at h2
  obtain ⟨rest, hfq⟩ := hfq
  have hfq2 : stripCI ('f' :: "aq:".data) (dropWs raw.data) = some rest := hfq
  obtain ⟨c, t, hdrop, hcf⟩ := stripCI_head 'f' "aq:".data (dropWs raw.data) rest hfq2
  rcases hr : raw.data with _ | ⟨c0, t0⟩
  · rw [hr] at hdrop
    cases hdrop
  · by_cases hw : c0.isWhitespace = true
    · constructor
      · have h1 : stripCI "refresh".data (c0 :: t0) = none :=
          stripCI_cons_ne 'r' "efresh".data c0 t0 (ws_toLower_ne c0 hw 'r' (by decide))
        have h2 : stripCI "sync".data (c0 :: t0) = none :=
          stripCI_cons_ne 's' "ync".data c0 t0 (ws_toLower_ne c0 hw 's' (by decide))
        unfold isRefreshFaqCmd
        rw [hr, h1, h2]
        rfl
      · have h1 : stripCI "refresh".data (c0 :: t0) = none :=
          stripCI_cons_ne 'r' "efresh".data c0 t0 (ws_toLower_ne c0 hw 'r' (by decide))
        have h2 : stripCI "reload".data (c0 :: t0) = none :=
          stripCI_cons_ne 'r' "eload".data c0 t0 (ws_toLower_ne c0 hw 'r' (by decide))
        unfold isReloadSopsCmd
        rw [hr, h1, h2]
        rfl
    · have hwb : c0.isWhitespace = false := by simpa using hw
      rw [hr] at hdrop
      have hd2 : dropWs (c0 :: t0) = c0 :: t0 := by simp [dropWs, hwb]
      rw [hd2] at hdrop
      injection hdrop with hc0 ht0
      have hcf0 : c0.toLower = 'f' := by rw [hc0]; exact hcf
      constructor
      · have h1 : stripCI "refresh".data (c0 :: t0) = none :=
          stripCI_cons_ne 'r' "efresh".data c0 t0 (by rw [hcf0]; decide)
        have h2 : stripCI "sync".data (c0 :: t0) = none :=
          stripCI_cons_ne 's' "ync".data c0 t0 (by rw [hcf0]; decide)
        unfold isRefreshFaqCmd
        rw [hr, h1, h2]
        rfl
      · have h1 : stripCI "refresh".data (c0 :: t0) = none :=
          stripCI_cons_ne 'r' "efresh".data c0 t0 (by rw [hcf0]; decide)
        have h2 : stripCI "reload".data (c0 :: t0) = none :=
          stripCI_cons_ne 'r' "eload".data c0 t0 (by rw [hcf0]; decide)
        unfold isReloadSopsCmd
        rw [hr, h1, h2]
        rfl

theorem searchFaqs_nil (q : String) (lim : Nat) (wt : Option String) :
    searchFaqs [] q lim wt = [] := by
  simp [searchFaqs, sortByScoreDesc]

theorem routeWithMode_faq (st : KState) (q : String) :
    routeWithMode st (some ControlMode.faq, q) = flowTail st q false [] := rfl

/-- With the `faq:` control mode the SOP-first block is skipped. -/
theorem handleQueryFlow_faq (st : KState) (rawText : String)
    (hmode : (getControlMode (trimStr rawText)).1 = some ControlMode.faq) :
    handleQueryFlow st rawText
      = flowTail st (getControlMode (trimStr rawText)).2 false [] := by
  obtain ⟨hm1, hm2⟩ := ctrlFaq_not_maintenance (trimStr rawText) hmode
  have hne : trimStr rawText ≠ "" := by
    intro he
    rw [he] at hmode
    exact absurd hmode (by decide)
  have hmt : getControlMode (trimStr rawText)
      = (some ControlMode.faq, (getControlMode (trimStr rawText)).2) := by
    rw [← hmode]
  unfold handleQueryFlow
  rw [if_neg hne, hm1, if_neg (show ¬(false = true) by decide),
      hm2, if_neg (show ¬(false = true) by decide), hmt]
  exact routeWithMode_faq st _

/-- Claim C3: with a `faq: x` control prefix the router queries the FAQ
collection as the primary path and the Procedure (SOP) collection only
as a fallback when the FAQ search yields nothing.  Stated on the part
000 `handleQueryFlow` via its query trace: the SOP alias path is never
taken, the first query (when the FAQ cache is non-empty) is the FAQ
search, an SOP search happens only when the FAQ search result is empty,
any SOP reply is exactly the fallback SOP search result, and a
non-empty FAQ result is always answered from the FAQ.  The index.js
`docGroundedAnswer` analogue: with `force = faq` the result is never a
grounded SOP answer. -/
theorem c3_faq_primary :
    (∀ (st : KState) (rawText : String),
      (getControlMode (trimStr rawText)).1 = some ControlMode.faq →
      QStep.sopAliasQuery ∉ (handleQueryFlow st rawText).steps
      ∧ (st.faqCache ≠ [] →
          (handleQueryFlow st rawText).steps.head? = some QStep.faqQuery)
      ∧ (QStep.sopQuery ∈ (handleQueryFlow st rawText).steps →
          searchFaqs st.faqCache
            (parseTypeTag (getControlMode (trimStr rawText)).2).2 3
            (parseTypeTag (getControlMode (trimStr rawText)).2).1 = [])
      ∧ (∀ h, (handleQueryFlow st rawText).reply = some (Reply.sopHits h) →
          h = searchSOPs st.sops (getControlMode (trimStr rawText)).2 3)
      ∧ (searchFaqs st.faqCache (parseTypeTag (getControlMode (trimStr rawText)).2).2 3
            (parseTypeTag (getControlMode (trimStr rawText)).2).1 ≠ [] →
          st.faqCache ≠ [] →
          (handleQueryFlow st rawText).reply = some (Reply.faqHits
            (searchFaqs st.faqCache (parseTypeTag (getControlMode (trimStr rawText)).2).2 3
              (parseTypeTag (getControlMode (trimStr rawText)).2).1))))
    ∧ (∀ (sopC faqC : List Doc) (t : String) (it : Doc) (s : Nat),
        docGroundedAnswer sopC faqC (some DocKind.faq) t
          ≠ DocDecision.grounded DocKind.sop it s) := by
  constructor
  · intro st rawText hmode
    rw [handleQueryFlow_faq st rawText hmode]
    generalize (getControlMode (trimStr rawText)).2 = qT
    by_cases hem : st.faqCache.isEmpty = true
    · have hce : st.faqCache = [] := by simpa using hem
      have hfnil : searchFaqs st.faqCache (parseTypeTag qT).2 3 (parseTypeTag qT).1 = [] := by
        rw [hce]
        exact searchFaqs_nil _ _ _
      have h1 : flowTail st qT false [] = flowTail2 st qT false [] := by
        unfold flowTail
        rw [hem]
        rfl
      by_cases hsem : (searchSOPs st.sops qT 3).isEmpty = true
      · have hval : flowTail st qT false []
            = ⟨some Reply.llmText, [QStep.sopQuery, QStep.llmCall]⟩ := by
          rw [h1]
          unfold flowTail2
          rw [if_pos (show (!false) = true by decide), hsem,
            if_neg (show ¬((!true) = true) by decide)]
          rfl
        rw [hval]
        refine ⟨by decide, ?_, ?_, ?_, ?_⟩
        · intro hni
          exact absurd hce hni
        · intro _
          exact hfnil
        · intro h hrep
          simp at hrep
        · intro hcontra _
          exact absurd hfnil hcontra
      · rw [Bool.not_eq_true] at hsem
        have hsne : (!(searchSOPs st.sops qT 3).isEmpty) = true := by
          rw [hsem]
          rfl
        have hval : flowTail st qT false []
            = ⟨some (Reply.sopHits (searchSOPs st.sops qT 3)), [QStep.sopQuery]⟩ := by
          rw [h1]
          unfold flowTail2
          rw [if_pos (show (!false) = true by decide), if_pos hsne]
          rfl
        rw [hval]
        refine ⟨show QStep.sopAliasQuery ∉ [QStep.sopQuery] by decide, ?_, ?_, ?_, ?_⟩
        · intro hni
          exact absurd hce hni
        · intro _
          exact hfnil
        · intro h hrep
          injection hrep with hrep2
          injection hrep2 with hrep3
          exact hrep3.symm
        · intro hcontra _
          exact absurd hfnil hcontra
    · rw [Bool.not_eq_true] at hem
      have hpos : (!st.faqCache.isEmpty) = true := by
        rw [hem]
        rfl
      by_cases hfem : (searchFaqs st.faqCache (parseTypeTag qT).2 3 (parseTypeTag qT).1).isEmpty
          = true
      · have hfnil : searchFaqs st.faqCache (parseTypeTag qT).2 3 (parseTypeTag qT).1 = [] := by
          simpa using hfem
        have h1 : flowTail st qT false [] = flowTail2 st qT false [QStep.faqQuery] := by
          unfold flowTail
          rw [if_pos hpos, hfem, if_neg (show ¬((!true) = true) by decide)]
          rfl
        by_cases hsem : (searchSOPs st.sops qT 3).isEmpty = true
        · have hval : flowTail st qT false []
              = ⟨some Reply.llmText, [QStep.faqQuery, QStep.sopQuery, QStep.llmCall]⟩ := by
            rw [h1]
            unfold flowTail2
            rw [if_pos (show (!false) = true by decide), hsem,
              if_neg (show ¬((!true) = true) by decide)]
            rfl
          rw [hval]
          refine ⟨by decide, ?_, ?_, ?_, ?_⟩
          · intro _
            rfl
          · intro _
            exact hfnil
          · intro h hrep
            simp at hrep
          · intro hcontra _
            exact absurd hfnil hcontra
        · rw [Bool.not_eq_true] at hsem
          have hsne : (!(searchSOPs st.sops qT 3).isEmpty) = true := by
            rw [hsem]
            rfl
          have hval : flowTail st qT false []
              = ⟨some (Reply.sopHits (searchSOPs st.sops qT 3)),
                  [QStep.faqQuery, QStep.sopQuery]⟩ := by
            rw [h1]
            unfold flowTail2
            rw [if_pos (show (!false) = true by decide), if_pos hsne]
            rfl
          rw [hval]
          refine ⟨show QStep.sopAliasQuery ∉ [QStep.faqQuery, QStep.sopQuery] by decide,
            ?_, ?_, ?_, ?_⟩
          · intro _
            rfl
          · intro _
            exact hfnil
          · intro h hrep
            injection hrep with hrep2
            injection hrep2 with hrep3
            exact hrep3.symm
          · intro hcontra _
            exact absurd hfnil hcontra
      · rw [Bool.not_eq_true] at hfem
        have hfne : (!(searchFaqs st.faqCache (parseTypeTag qT).2 3 (parseTypeTag qT).1).isEmpty)
            = true := by
          rw [hfem]
          rfl
        have hval : flowTail st qT false []
            = ⟨some (Reply.faqHits (searchFaqs st.faqCache (parseTypeTag qT).2 3
                (parseTypeTag qT).1)), [QStep.faqQuery]⟩ := by
          unfold flowTail
          rw [if_pos hpos, if_pos hfne]
          rfl
        rw [hval]
        refine ⟨show QStep.sopAliasQuery ∉ [QStep.faqQuery] by decide, ?_, ?_, ?_, ?_⟩
        · intro _
          rfl
        · intro hmem
          exact absurd hmem (show QStep.sopQuery ∉ [QStep.faqQuery] by decide)
        · intro h hrep
          simp at hrep
        · intro _ _
          rfl
  · intro sopC faqC t it s h
    have h2 := (docGrounded_grounded sopC faqC (some DocKind.faq) t DocKind.sop it s h).2 rfl
    exact absurd h2 (by decide)

/-- Witness for C3 at a concrete `faq:` message. -/
theorem c3_witness :
    QStep.sopAliasQuery ∉
      (handleQueryFlow
        ⟨[FaqItem.mk "faq-1" "" "What is the commission split?" "60/40 for year one."], []⟩
        "faq: split").steps :=
  ((c3_faq_primary.1
      ⟨[FaqItem.mk "faq-1" "" "What is the commission split?" "60/40 for year one."], []⟩
      "faq: split" (by decide))).1

/-! ## Claim C6 -/

theorem mem_insertRanked {α : Type} (x p : α × Nat) (l : List (α × Nat)) :
    p ∈ insertRanked x l ↔ p = x ∨ p ∈ l := by
  induction l with
  | nil => simp [insertRanked]
  | cons y ys ih =>
    simp only [insertRanked]
    by_cases hc : y.2 < x.2
    · rw [if_pos hc]
      simp [List.mem_cons]
    · rw [if_neg hc]
      simp only [List.mem_cons, ih]
      tauto

theorem insertRanked_pairwise {α : Type} (x : α × Nat) (l : List (α × Nat))
    (h : l.Pairwise (fun a b => b.2 ≤ a.2)) :
    (insertRanked x l).Pairwise (fun a b => b.2 ≤ a.2) := by
  induction l with
  | nil => simp [insertRanked]
  | cons y ys ih =>
    obtain ⟨hy, hys⟩ := List.pairwise_cons.mp h
    simp only [insertRanked]
    by_cases hc : y.2 < x.2
    · rw [if_pos hc]
      refine List.pairwise_cons.mpr ⟨?_, h⟩
      intro z hz
      rcases List.mem_cons.mp hz with rfl | hz2
      · omega
      · have := hy z hz2
        omega
    · rw [if_neg hc]
      refine List.pairwise_cons.mpr ⟨?_, ih hys⟩
      intro z hz
      rcases (mem_insertRanked x z ys).mp hz with rfl | hz2
      · omega
      · exact hy z hz2

theorem insertRanked_filter {α : Type} (x : α × Nat) (l : List (α × Nat)) (s : Nat)
    (h : l.Pairwise (fun a b => b.2 ≤ a.2)) :
    (insertRanked x l).filter (fun p => p.2 == s)
      = if x.2 = s then l.filter (fun p => p.2 == s) ++ [x]
        else l.filter (fun p => p.2 == s) := by
  induction l with
  | nil =>
    by_cases hx : x.2 = s <;> simp [insertRanked, hx]
  | cons y ys ih =>
    obtain ⟨hy, hys⟩ := List.pairwise_cons.mp h
    simp only [insertRanked]
    by_cases hc : y.2 < x.2
    · rw [if_pos hc]
      by_cases hx : x.2 = s
      · have hnil : (y :: ys).filter (fun p => p.2 == s) = [] := by
          rw [List.filter_eq_nil_iff]
          intro a ha
          rcases List.mem_cons.mp ha with rfl | ha2
          · simp only [beq_iff_eq]
            omega
          · have := hy a ha2
            simp only [beq_iff_eq]
            omega
        rw [if_pos hx, List.filter_cons, if_pos (show (x.2 == s) = true by simp [hx]), hnil]
        rfl
      · rw [if_neg hx, List.filter_cons, if_neg (show ¬((x.2 == s) = true) by simp [hx])]
    · rw [if_neg hc, List.filter_cons, ih hys]
      by_cases hx : x.2 = s
      · rw [if_pos hx, if_pos hx, List.filter_cons]
        by_cases hyy : (y.2 == s) = true
        · rw [if_pos hyy, if_pos hyy]
          rfl
        · rw [if_neg hyy, if_neg hyy]
      · rw [if_neg hx, if_neg hx, List.filter_cons]

theorem sortFold_pairwise {α : Type} (l acc : List (α × Nat))
    (h : acc.Pairwise (fun a b => b.2 ≤ a.2)) :
    (l.foldl (fun a x => insertRanked x a) acc).Pairwise (fun a b => b.2 ≤ a.2) := by
  induction l generalizing acc with
  | nil => simpa using h
  | cons y ys ih =>
    rw [List.foldl_cons]
    exact ih _ (insertRanked_pairwise y acc h)

theorem sortFold_filter {α : Type} (l acc : List (α × Nat)) (s : Nat)
    (h : acc.Pairwise (fun a b => b.2 ≤ a.2)) :
    (l.foldl (fun a x => insertRanked x a) acc).filter (fun p => p.2 == s)
      = acc.filter (fun p => p.2 == s) ++ l.filter (fun p => p.2 == s) := by
  induction l generalizing acc with
  | nil => simp
  | cons y ys ih =>
    rw [List.foldl_cons, ih _ (insertRanked_pairwise y acc h),
      insertRanked_filter y acc s h, List.filter_cons]
    by_cases hy : y.2 = s
    · rw [if_pos hy, if_pos (by simp [hy])]
      simp
    · rw [if_neg hy, if_neg (by simp [hy])]

theorem sortFold_mem {α : Type} (l acc : List (α × Nat)) (p : α × Nat) :
    p ∈ l.foldl (fun a x => insertRanked x a) acc ↔ p ∈ acc ∨ p ∈ l := by
  induction l generalizing acc with
  | nil => simp
  | cons y ys ih =>
    rw [List.foldl_cons, ih]
    rw [mem_insertRanked]
    simp [List.mem_cons]
    tauto

theorem sortByScoreDesc_pairwise {α : Type} (l : List (α × Nat)) :
    (sortByScoreDesc l).Pairwise (fun a b => b.2 ≤ a.2) :=
  sortFold_pairwise l [] (by simp)

theorem sortByScoreDesc_filter {α : Type} (l : List (α × Nat)) (s : Nat) :
    (sortByScoreDesc l).filter (fun p => p.2 == s) = l.filter (fun p => p.2 == s) := by
  have h := sortFold_filter l [] s (by simp)
  simpa [sortByScoreDesc] using h

theorem sortByScoreDesc_mem {α : Type} (l : List (α × Nat)) (p : α × Nat) :
    p ∈ sortByScoreDesc l ↔ p ∈ l := by
  have h := sortFold_mem l [] p
  simpa [sortByScoreDesc] using h

theorem filter_map_fst {α : Type} (l : List (α × Nat)) (g : α → Bool) :
    (l.map Prod.fst).filter g = (l.filter (fun p => g p.1)).map Prod.fst := by
  induction l with
  | nil => rfl
  | cons y ys ih =>
    simp only [List.map_cons, List.filter_cons]
    by_cases hy : g y.1 = true
    · rw [if_pos hy, if_pos hy, List.map_cons, ih]
    · rw [if_neg hy, if_neg hy, ih]

theorem map_pair_filter {α : Type} (l : List α) (f : α → Nat) (s : Nat) :
    (l.map (fun a => (a, f a))).filter (fun p => p.2 == s)
      = (l.filter (fun a => f a == s)).map (fun a => (a, f a)) := by
  induction l with
  | nil => rfl
  | cons y ys ih =>
    simp only [List.map_cons, List.filter_cons]
    by_cases hy : (f y == s) = true
    · rw [if_pos hy, if_pos hy, List.map_cons, ih]
    · rw [if_neg hy, if_neg hy, ih]

/-- All facts about the ranked-take pipeline shared by both searches:
bounded length, membership in the input, descending scores, and
score-class stability (as an order-preserving sublist). -/
theorem rankedTake_spec {α : Type} (l : List (α × Nat)) (limit : Nat) :
    ((sortByScoreDesc l).take limit).length ≤ limit
    ∧ (∀ p ∈ (sortByScoreDesc l).take limit, p ∈ l)
    ∧ ((sortByScoreDesc l).take limit).Pairwise (fun a b => b.2 ≤ a.2)
    ∧ (∀ s, List.Sublist (((sortByScoreDesc l).take limit).filter (fun p => p.2 == s))
        (l.filter (fun p => p.2 == s))) := by
  refine ⟨List.length_take_le limit _, ?_, ?_, ?_⟩
  · intro p hp
    have hmem : p ∈ sortByScoreDesc l :=
      (List.take_sublist limit (sortByScoreDesc l)).subset hp
    exact (sortByScoreDesc_mem l p).mp hmem
  · exact (sortByScoreDesc_pairwise l).sublist (List.take_sublist limit _)
  · intro s
    have h1 : List.Sublist (((sortByScoreDesc l).take limit).filter (fun p => p.2 == s))
        ((sortByScoreDesc l).filter (fun p => p.2 == s)) :=
      (List.take_sublist limit _).filter _
    rw [sortByScoreDesc_filter] at h1
    exact h1

theorem searchFaqs_spec (cache : List FaqItem) (query : String) (limit : Nat)
    (wt : Option String) :
    (searchFaqs cache query limit wt).length ≤ limit
    ∧ (∀ it ∈ searchFaqs cache query limit wt,
        0 < searchFaqScore (lowerStr query) it
        ∧ (∀ t, wt = some t → lowerStr it.type = t))
    ∧ (searchFaqs cache query limit wt).Pairwise
        (fun a b => searchFaqScore (lowerStr query) b ≤ searchFaqScore (lowerStr query) a)
    ∧ (∀ s, List.Sublist ((searchFaqs cache query limit wt).filter
          (fun it => searchFaqScore (lowerStr query) it == s))
        (cache.filter (fun it => searchFaqScore (lowerStr query) it == s))) := by
  have hdef : searchFaqs cache query limit wt
      = ((sortByScoreDesc (((cache.map
            (fun it => (it, searchFaqScore (lowerStr query) it))).filter
            (fun x => decide (0 < x.2))).filter
            (fun x => match wt with
                      | none => true
                      | some t => lowerStr x.1.type == t))).take limit).map
          Prod.fst := rfl
  rw [hdef]
  set q := lowerStr query with hq
  set scored := cache.map (fun it => (it, searchFaqScore q it)) with hscored
  set keep := (scored.filter (fun x => decide (0 < x.2))).filter
      (fun x => match wt with
                | none => true
                | some t => lowerStr x.1.type == t) with hkeep
  obtain ⟨hlen, hmem, hpw, hstab⟩ := rankedTake_spec keep limit
  have hinv : ∀ p ∈ (sortByScoreDesc keep).take limit,
      p.2 = searchFaqScore q p.1 ∧ 0 < p.2
      ∧ (∀ t, wt = some t → lowerStr p.1.type = t) := by
    intro p hp
    have hk := hmem p hp
    rw [hkeep] at hk
    have hk2 := List.mem_filter.mp hk
    have hk3 := List.mem_filter.mp hk2.1
    obtain ⟨it0, hit0, hpe⟩ := List.mem_map.mp (by rw [hscored] at hk3; exact hk3.1)
    refine ⟨?_, ?_, ?_⟩
    · rw [← hpe]
    · exact of_decide_eq_true hk3.2
    · intro t hwt
      have hk22 := hk2.2
      rw [hwt] at hk22
      exact beq_iff_eq.mp hk22
  refine ⟨?_, ?_, ?_, ?_⟩
  · rw [List.length_map]
    exact hlen
  · intro it hit
    obtain ⟨p, hp, hpe⟩ := List.mem_map.mp hit
    obtain ⟨hps, hppos, hptype⟩ := hinv p hp
    constructor
    · rw [← hpe, ← hps]
      exact hppos
    · intro t hwt
      rw [← hpe]
      exact hptype t hwt
  · rw [List.pairwise_map]
    refine hpw.imp_of_mem ?_
    intro a b ha hb hr
    have h1 := (hinv a ha).1
    have h2 := (hinv b hb).1
    rw [← h1, ← h2]
    exact hr
  · intro s
    rw [filter_map_fst]
    have hcg : ((sortByScoreDesc keep).take limit).filter
          (fun p => searchFaqScore q p.1 == s)
        = ((sortByScoreDesc keep).take limit).filter (fun p => p.2 == s) := by
      apply List.filter_congr
      intro p hp
      rw [(hinv p hp).1]
    rw [hcg]
    have h2s : List.Sublist keep scored := by
      rw [hkeep]
      exact (List.filter_sublist _).trans (List.filter_sublist _)
    have h3 : List.Sublist (keep.filter (fun p => p.2 == s))
        (scored.filter (fun p => p.2 == s)) := h2s.filter _
    have h4 : scored.filter (fun p => p.2 == s)
        = (cache.filter (fun it => searchFaqScore q it == s)).map
            (fun it => (it, searchFaqScore q it)) := by
      rw [hscored]
      exact map_pair_filter cache (searchFaqScore q) s
    have h5 := (hstab s).trans h3
    rw [h4] at h5
    have h6 := h5.map Prod.fst
    rw [List.map_map] at h6
    have hplain : List.map (Prod.fst ∘ fun it => (it, searchFaqScore q it))
        (cache.filter (fun it => searchFaqScore q it == s))
        = cache.filter (fun it => searchFaqScore q it == s) :=
      List.map_id' _
    rw [hplain] at h6
    exact h6

theorem searchSOPs_spec (sops : List SopItem) (query : String) (limit : Nat) :
    (searchSOPs sops query limit).length ≤ limit
    ∧ (∀ it ∈ searchSOPs sops query limit, 0 < sopSearchScore (lowerStr query) it)
    ∧ (searchSOPs sops query limit).Pairwise
        (fun a b => sopSearchScore (lowerStr query) b ≤ sopSearchScore (lowerStr query) a)
    ∧ (∀ s, List.Sublist ((searchSOPs sops query limit).filter
          (fun it => sopSearchScore (lowerStr query) it == s))
        (sops.filter (fun it => sopSearchScore (lowerStr query) it == s))) := by
  by_cases hse : sops.isEmpty = true
  · have hnilres : searchSOPs sops query limit = [] := by
      unfold searchSOPs
      rw [if_pos hse]
    rw [hnilres]
    refine ⟨by simp, by simp, by simp, ?_⟩
    intro s
    rw [List.filter_nil]
    exact List.nil_sublist _
  · have hdef : searchSOPs sops query limit
        = ((sortByScoreDesc ((sops.map
              (fun s0 => (s0, sopSearchScore (lowerStr query) s0))).filter
              (fun x => decide (0 < x.2)))).take limit).map Prod.fst := by
      unfold searchSOPs
      rw [if_neg hse]
    rw [hdef]
    set q := lowerStr query with hq
    set scored := sops.map (fun s0 => (s0, sopSearchScore q s0)) with hscored
    set keep := scored.filter (fun x => decide (0 < x.2)) with hkeep
    obtain ⟨hlen, hmem, hpw, hstab⟩ := rankedTake_spec keep limit
    have hinv : ∀ p ∈ (sortByScoreDesc keep).take limit,
        p.2 = sopSearchScore q p.1 ∧ 0 < p.2 := by
      intro p hp
      have hk := hmem p hp
      rw [hkeep] at hk
      have hk3 := List.mem_filter.mp hk
      obtain ⟨it0, hit0, hpe⟩ := List.mem_map.mp (by rw [hscored] at hk3; exact hk3.1)
      refine ⟨?_, of_decide_eq_true hk3.2⟩
      rw [← hpe]
    refine ⟨?_, ?_, ?_, ?_⟩
    · rw [List.length_map]
      exact hlen
    · intro it hit
      obtain ⟨p, hp, hpe⟩ := List.mem_map.mp hit
      obtain ⟨hps, hppos⟩ := hinv p hp
      rw [← hpe, ← hps]
      exact hppos
    · rw [List.pairwise_map]
      refine hpw.imp_of_mem ?_
      intro a b ha hb hr
      have h1 := (hinv a ha).1
      have h2 := (hinv b hb).1
      rw [← h1, ← h2]
      exact hr
    · intro s
      rw [filter_map_fst]
      have hcg : ((sortByScoreDesc keep).take limit).filter
            (fun p => sopSearchScore q p.1 == s)
          = ((sortByScoreDesc keep).take limit).filter (fun p => p.2 == s) := by
        apply List.filter_congr
        intro p hp
        rw [(hinv p hp).1]
      rw [hcg]
      have h3 : List.Sublist (keep.filter (fun p => p.2 == s))
          (scored.filter (fun p => p.2 == s)) := by
        rw [hkeep]
        exact (List.filter_sublist _).filter _
      have h4 : scored.filter (fun p => p.2 == s)
          = (sops.filter (fun it => sopSearchScore q it == s)).map
              (fun it => (it, sopSearchScore q it)) := by
        rw [hscored]
        exact map_pair_filter sops (sopSearchScore q) s
      have h5 := (hstab s).trans h3
      rw [h4] at h5
      have h6 := h5.map Prod.fst
      rw [List.map_map] at h6
      have hplain : List.map (Prod.fst ∘ fun it => (it, sopSearchScore q it))
          (sops.filter (fun it => sopSearchScore q it == s))
          = sops.filter (fun it => sopSearchScore q it == s) :=
        List.map_id' _
      rw [hplain] at h6
      exact h6

/-- Claim C6: for every query and collection snapshot, the ranked
searches return at most `limit` items, each with score strictly greater
than 0 and (for the FAQ search) satisfying the optional category
filter, sorted by non-increasing score; and the sort is stable — for
every score value, the returned items with that score form an
order-preserving sublist of the snapshot in original insertion order. -/
theorem c6_search_contract :
    (∀ (cache : List FaqItem) (query : String) (limit : Nat) (wt : Option String),
      (searchFaqs cache query limit wt).length ≤ limit
      ∧ (∀ it ∈ searchFaqs cache query limit wt,
          0 < searchFaqScore (lowerStr query) it
          ∧ (∀ t, wt = some t → lowerStr it.type = t))
      ∧ (searchFaqs cache query limit wt).Pairwise
          (fun a b => searchFaqScore (lowerStr query) b ≤ searchFaqScore (lowerStr query) a)
      ∧ (∀ s, List.Sublist ((searchFaqs cache query limit wt).filter
            (fun it => searchFaqScore (lowerStr query) it == s))
          (cache.filter (fun it => searchFaqScore (lowerStr query) it == s))))
    ∧ (∀ (sops : List SopItem) (query : String) (limit : Nat),
      (searchSOPs sops query limit).length ≤ limit
      ∧ (∀ it ∈ searchSOPs sops query limit, 0 < sopSearchScore (lowerStr query) it)
      ∧ (searchSOPs sops query limit).Pairwise
          (fun a b => sopSearchScore (lowerStr query) b ≤ sopSearchScore (lowerStr query) a)
      ∧ (∀ s, List.Sublist ((searchSOPs sops query limit).filter
            (fun it => sopSearchScore (lowerStr query) it == s))
          (sops.filter (fun it => sopSearchScore (lowerStr query) it == s)))) :=
  ⟨fun cache query limit wt => searchFaqs_spec cache query limit wt,
   fun sops query limit => searchSOPs_spec sops query limit⟩

/-- Witness for C6 on a concrete snapshot. -/
theorem c6_witness :
    (searchFaqs [FaqItem.mk "faq-1" "buyer" "What is the commission split?" "60/40."]
        "split" 3 none).length ≤ 3
    ∧ 0 < searchFaqScore (lowerStr "split")
        (FaqItem.mk "faq-1" "buyer" "What is the commission split?" "60/40.") := by
  refine ⟨(c6_search_contract.1
    [FaqItem.mk "faq-1" "buyer" "What is the commission split?" "60/40."] "split" 3 none).1, ?_⟩
  exact ((c6_search_contract.1
    [FaqItem.mk "faq-1" "buyer" "What is the commission split?" "60/40."] "split" 3 none).2.1
    (FaqItem.mk "faq-1" "buyer" "What is the commission split?" "60/40.") (by decide)).1

end Murphy
